import Mathlib

/-!
Verification development for the playbook optimizer (`bin/optimize.py`).

The program has two components:

* a Role Activation Resolver: `is_role_definition_in_use` decides, for one
  role definition and the set of used variable names, whether the role is
  enabled; the driver derives the enabled/known role-name sets from it;
* a Block-Scoped Line Filter: `process_file_contents` scans a file line by
  line, maintains a LIFO stack of open `role-specific` blocks, validates
  marker nesting against the known-role set, drops lines of disabled blocks
  and compacts runs of retained blank lines to at most two.

Every definition below is a shallow embedding of the corresponding Python
code, translated line by line.  Python sets are modelled as lists with
membership; file I/O is modelled by passing the file contents as a string.
-/

namespace Optimize

/-- Characters matched by the regex class `\s` on the ASCII range
(space, tab, newline, carriage return, vertical tab, form feed). -/
def isPySpace (c : Char) : Bool :=
  c == ' ' || c == '\t' || c == '\n' || c == '\r' || c == '\x0b' || c == '\x0c'

/-- Drop a literal character sequence from the front of a character list;
`none` when the input does not start with the literal. -/
def dropLit : List Char → List Char → Option (List Char)
  | [], cs => some cs
  | _ :: _, [] => none
  | p :: ps, c :: cs => if c == p then dropLit ps cs else none

/-- Core of the two marker regexes
`^\s*#\s*role-specific:\s*([^\s]+)$` (start, `slash = false`) and
`^\s*#\s*/role-specific:\s*([^\s]+)$` (end, `slash = true`).
Returns the captured group 1 (the role-name token) when the whole line
matches.  Because the token class excludes whitespace, the greedy
maximal-munch reading of each `\s*` is equivalent to the backtracking
semantics of the regex engine. -/
def matchRoleMarker (slash : Bool) (line : String) : Option String :=
  let cs := line.toList.dropWhile isPySpace
  match cs with
  | '#' :: rest =>
    let afterHash := rest.dropWhile isPySpace
    let lit := (if slash then "/role-specific:" else "role-specific:").toList
    match dropLit lit afterHash with
    | some afterLit =>
      let tok := afterLit.dropWhile isPySpace
      if tok ≠ [] ∧ tok.all (fun c => !isPySpace c) then
        some (String.mk tok)
      else
        none
    | none => none
  | _ => none

/-- Embeds `regex_role_specific_block_start.match(line)`, returning group 1. -/
def matchBlockStart (line : String) : Option String :=
  matchRoleMarker false line

/-- Embeds `regex_role_specific_block_end.match(line)`, returning group 1. -/
def matchBlockEnd (line : String) : Option String :=
  matchRoleMarker true line

/-- The possible results of `yaml.safe_load` on one vars file, as far as
the loader inspects them: a top-level mapping (only its key strings matter),
a sequence, a string, an integer, a boolean, or null (also the result of
parsing an empty document). -/
inductive YamlValue where
  | mapping (entries : List (String × YamlValue))
  | seq (items : List YamlValue)
  | strVal (s : String)
  | intVal (n : Int)
  | boolVal (b : Bool)
  | null

/-- Python truthiness of a parsed YAML value, as tested by the
`yaml.safe_load(file) or {}` idiom: `None`, empty collections, the empty
string, `0` and `False` are falsy. -/
def pyTruthy : YamlValue → Bool
  | .mapping entries => !entries.isEmpty
  | .seq items => !items.isEmpty
  | .strVal s => !(s == "")
  | .intVal n => !(n == 0)
  | .boolVal b => b
  | .null => false

/-- Whether a parsed YAML value is a mapping (`isinstance(yaml_data, dict)`). -/
def isYamlMapping : YamlValue → Bool
  | .mapping _ => true
  | _ => false

/-- The per-file body of `load_combined_variable_names_from_files`:
replace a falsy parse result by the empty mapping (`yaml_data or {}`),
fail unless the result is a mapping, and return its top-level key names. -/
def topLevelKeys (v : YamlValue) : Except String (List String) :=
  let yaml_data := if pyTruthy v then v else .mapping []
  match yaml_data with
  | .mapping entries => .ok (entries.map (fun e => e.1))
  | _ => .error "did not parse to a YAML mapping/dict"

/-- Embeds `load_combined_variable_names_from_files(vars_yml_file_paths)`,
with each file's parse result passed explicitly: accumulate the union of
the top-level key names of every source (the Python set union `|=` is
modelled by deduplicated list append), failing on the first source whose
(truthiness-coerced) value is not a mapping. -/
def loadVarsAux : List YamlValue → List String → Except String (List String)
  | [], variable_names => .ok variable_names
  | v :: vs, variable_names =>
    match topLevelKeys v with
    | .ok ks => loadVarsAux vs ((variable_names ++ ks).dedup)
    | .error msg => .error msg

/-- Entry point of the loader: start from the empty name set. -/
def load_combined_variable_names_from_files (docs : List YamlValue) :
    Except String (List String) :=
  loadVarsAux docs []

/-- Top-level key names a source contributes after the truthiness
coercion: the keys of a mapping, nothing for any other value. -/
def effectiveKeys (d : YamlValue) : List String :=
  match d with
  | .mapping entries => entries.map (fun e => e.1)
  | _ => []

/-- A role definition record, as consumed by the resolver after the
driver's structural validation: a required `name` and an optional
activation-prefix string.  `none` models `role_definition.get("activation_prefix", None)`
returning `None` (key absent). -/
structure RoleDefinition where
  name : String
  activationPfx : Option String
deriving Repr, DecidableEq

/-- Embeds Python `s.startswith(pre)`: exact, case-sensitive,
character-wise prefix test. -/
def startswith (s pre : String) : Bool :=
  pre.toList.isPrefixOf s.toList

/-- Embeds `is_role_definition_in_use(role_definition, used_variable_names)`:
no activation-prefix key means not enabled, the empty string means always
enabled, and a non-empty string `p` enables the role iff some used variable
name starts with `p`. -/
def is_role_definition_in_use (rd : RoleDefinition) (used_variable_names : List String) : Bool :=
  match rd.activationPfx with
  | none => false
  | some p =>
    if p == "" then
      true
    else
      used_variable_names.any (fun var_name => startswith var_name p)

/-- Embeds the driver loop over `all_role_definitions`, keeping the
definitions for which `is_role_definition_in_use` holds. -/
def enabled_role_definitions (defs : List RoleDefinition) (used : List String) :
    List RoleDefinition :=
  defs.filter (fun rd => is_role_definition_in_use rd used)

/-- Embeds `known_role_names = {definition["name"] for definition in all_role_definitions}`;
the Python set is modelled as a deduplicated list. -/
def known_role_names (defs : List RoleDefinition) : List String :=
  (defs.map (fun rd => rd.name)).dedup

/-- Embeds `enabled_role_names = {definition["name"] for definition in enabled_role_definitions}`. -/
def enabled_role_names (defs : List RoleDefinition) (used : List String) : List String :=
  ((enabled_role_definitions defs used).map (fun rd => rd.name)).dedup

/-- Embeds Python `sorted(...)` on a collection of strings. -/
def sortStrings (l : List String) : List String :=
  l.insertionSort (fun a b => a ≤ b)

/-- The error taxonomy of `process_file_contents`: each `raise Exception(...)`
site becomes one constructor carrying exactly the data interpolated into the
message (file name, 1-based line number, role name, and for unknown-role
errors the sorted known-role list; the unclosed-block error carries the
still-open role names outermost first, as Python prints the stack list). -/
inductive FilterError where
  | unknownRoleStart (file : String) (lineNumber : Nat) (role : String) (knownSorted : List String)
  | unknownRoleEnd (file : String) (lineNumber : Nat) (role : String) (knownSorted : List String)
  | endWithoutOpen (file : String) (lineNumber : Nat) (role : String)
  | endMismatch (file : String) (lineNumber : Nat) (role : String) (lastRole : String)
  | unclosedBlocks (file : String) (openRoles : List String)
deriving Repr, DecidableEq

/-- The scan loop of `process_file_contents`, recursing over the remaining
lines.  The stack keeps the innermost open block at the head (Python appends
and pops at the end of its list); `blanks` is `sequential_blank_lines_count`
and `ln` the 1-based number of the next line.  Returns the retained output
lines or the first error raised. -/
def processLines (file : String) (enabled known : List String) :
    List String → List String → Nat → Nat → Except FilterError (List String)
  | [], stack, _, _ =>
      if stack.isEmpty then
        .ok []
      else
        .error (.unclosedBlocks file stack.reverse)
  | line :: rest, stack, blanks, ln =>
      match matchBlockStart line with
      | some role =>
          if known.contains role then
            processLines file enabled known rest (role :: stack) blanks (ln + 1)
          else
            .error (.unknownRoleStart file ln role (sortStrings known))
      | none =>
        match matchBlockEnd line with
        | some role =>
            if known.contains role then
              match stack with
              | [] => .error (.endWithoutOpen file ln role)
              | top :: stackTail =>
                  if role == top then
                    processLines file enabled known rest stackTail blanks (ln + 1)
                  else
                    .error (.endMismatch file ln role top)
            else
              .error (.unknownRoleEnd file ln role (sortStrings known))
        | none =>
            if stack.any (fun r => !(enabled.contains r)) then
              processLines file enabled known rest stack blanks (ln + 1)
            else if line == "" then
              if blanks ≤ 1 then
                (processLines file enabled known rest stack (blanks + 1) (ln + 1)).map
                  (fun out => line :: out)
              else
                processLines file enabled known rest stack blanks (ln + 1)
            else
              (processLines file enabled known rest stack 0 (ln + 1)).map
                (fun out => line :: out)

/-- Embeds Python `contents.split("\n")` on character lists: every `'\n'`
is a separator, and a trailing separator produces a trailing empty chunk;
the empty input yields one empty chunk. -/
def splitNewlineChars : List Char → List (List Char)
  | [] => [[]]
  | c :: cs =>
    match splitNewlineChars cs, c == '\n' with
    | chunks, true => [] :: chunks
    | [], false => [[c]]
    | chunk :: chunks, false => (c :: chunk) :: chunks

/-- Embeds Python `contents.split("\n")` on strings. -/
def splitLines (contents : String) : List String :=
  (splitNewlineChars contents.toList).map (fun cs => String.mk cs)

/-- Embeds `process_file_contents(file_name, enabled_role_names_set, known_role_names_set)`,
with the file contents passed explicitly in place of `read_file`:
split on `"\n"`, scan with an empty stack, rejoin with `"\n"`. -/
def process_file_contents (file_name : String) (contents : String)
    (enabled_role_names_set known_role_names_set : List String) :
    Except FilterError String :=
  (processLines file_name enabled_role_names_set known_role_names_set
      (splitLines contents) [] 0 1).map
    (fun out_lines => String.intercalate "\n" out_lines)

/-- Whether no line of the list matches the open or the close marker
pattern. -/
def markerFreeLines (lines : List String) : Bool :=
  lines.all (fun l => (matchBlockStart l).isNone && (matchBlockEnd l).isNone)

/-- Reference transformation, following the spec's words for claims C7 and
C8: walk the lines keeping a counter `k` of blank lines kept in the current
run; a blank line is kept only while fewer than 2 blanks of its run were
kept, so every run of 3 or more consecutive blank lines collapses to
exactly 2; a non-blank line is kept and starts a new run.  Compared with
the scan loop it performs no marker handling and no retention filtering. -/
def collapseBlankRuns : List String → Nat → List String
  | [], _ => []
  | l :: ls, k =>
    if l = "" then
      if k ≤ 1 then l :: collapseBlankRuns ls (k + 1)
      else collapseBlankRuns ls k
    else l :: collapseBlankRuns ls 0

/-- Whether a list starts with two blank lines. -/
def isTwoBlankStart : List String → Bool
  | a :: b :: _ => a == "" && b == ""
  | _ => false

/-- Whether a list contains three consecutive blank lines anywhere. -/
def hasTripleBlank : List String → Bool
  | [] => false
  | l :: ls => (l == "" && isTwoBlankStart ls) || hasTripleBlank ls

/-- Number of blank lines at the front of the list. -/
def leadingBlanks : List String → Nat
  | [] => 0
  | l :: ls => if l = "" then leadingBlanks ls + 1 else 0

/-! ### Step equations for the scan loop -/

theorem processLines_nil_empty (file : String) (e k : List String) (blanks ln : Nat) :
    processLines file e k [] [] blanks ln = .ok [] := rfl

theorem processLines_nil_open (file : String) (e k : List String)
    (stack : List String) (blanks ln : Nat) (h : stack ≠ []) :
    processLines file e k [] stack blanks ln =
      .error (.unclosedBlocks file stack.reverse) := by
  cases stack with
  | nil => exact absurd rfl h
  | cons s t => rfl

theorem processLines_cons_start (file : String) (e k : List String)
    (line : String) (rest stack : List String) (blanks ln : Nat) (role : String)
    (hs : matchBlockStart line = some role) (hk : k.contains role = true) :
    processLines file e k (line :: rest) stack blanks ln =
      processLines file e k rest (role :: stack) blanks (ln + 1) := by
  simp at hk
  simp [processLines, hs, hk]

theorem processLines_cons_start_unknown (file : String) (e k : List String)
    (line : String) (rest stack : List String) (blanks ln : Nat) (role : String)
    (hs : matchBlockStart line = some role) (hk : k.contains role = false) :
    processLines file e k (line :: rest) stack blanks ln =
      .error (.unknownRoleStart file ln role (sortStrings k)) := by
  simp at hk
  simp [processLines, hs, hk]

theorem processLines_cons_end_unknown (file : String) (e k : List String)
    (line : String) (rest stack : List String) (blanks ln : Nat) (role : String)
    (hs : matchBlockStart line = none) (he : matchBlockEnd line = some role)
    (hk : k.contains role = false) :
    processLines file e k (line :: rest) stack blanks ln =
      .error (.unknownRoleEnd file ln role (sortStrings k)) := by
  simp at hk
  simp [processLines, hs, he, hk]

theorem processLines_cons_end_emptyStack (file : String) (e k : List String)
    (line : String) (rest : List String) (blanks ln : Nat) (role : String)
    (hs : matchBlockStart line = none) (he : matchBlockEnd line = some role)
    (hk : k.contains role = true) :
    processLines file e k (line :: rest) [] blanks ln =
      .error (.endWithoutOpen file ln role) := by
  simp at hk
  simp [processLines, hs, he, hk]

theorem processLines_cons_end_mismatch (file : String) (e k : List String)
    (line : String) (rest : List String) (top : String) (stackTail : List String)
    (blanks ln : Nat) (role : String)
    (hs : matchBlockStart line = none) (he : matchBlockEnd line = some role)
    (hk : k.contains role = true) (hne : role ≠ top) :
    processLines file e k (line :: rest) (top :: stackTail) blanks ln =
      .error (.endMismatch file ln role top) := by
  simp at hk
  simp [processLines, hs, he, hk, hne]

theorem processLines_cons_end_pop (file : String) (e k : List String)
    (line : String) (rest : List String) (stackTail : List String)
    (blanks ln : Nat) (role : String)
    (hs : matchBlockStart line = none) (he : matchBlockEnd line = some role)
    (hk : k.contains role = true) :
    processLines file e k (line :: rest) (role :: stackTail) blanks ln =
      processLines file e k rest stackTail blanks (ln + 1) := by
  simp at hk
  simp [processLines, hs, he, hk]

theorem processLines_cons_skip (file : String) (e k : List String)
    (line : String) (rest stack : List String) (blanks ln : Nat)
    (hs : matchBlockStart line = none) (he : matchBlockEnd line = none)
    (hd : stack.any (fun r => !(e.contains r)) = true) :
    processLines file e k (line :: rest) stack blanks ln =
      processLines file e k rest stack blanks (ln + 1) := by
  simp at hd
  simp [processLines, hs, he, hd]

theorem processLines_cons_blank_emit (file : String) (e k : List String)
    (rest stack : List String) (blanks ln : Nat)
    (hs : matchBlockStart "" = none) (he : matchBlockEnd "" = none)
    (ha : stack.any (fun r => !(e.contains r)) = false) (hb : blanks ≤ 1) :
    processLines file e k ("" :: rest) stack blanks ln =
      (processLines file e k rest stack (blanks + 1) (ln + 1)).map
        (fun out => "" :: out) := by
  simp at ha
  simp [processLines, hs, he, ha, hb]
  intro x hx hxe
  exact absurd (ha x hx) hxe

theorem processLines_cons_blank_drop (file : String) (e k : List String)
    (rest stack : List String) (blanks ln : Nat)
    (ha : stack.any (fun r => !(e.contains r)) = false) (hb : ¬ blanks ≤ 1) :
    processLines file e k ("" :: rest) stack blanks ln =
      processLines file e k rest stack blanks (ln + 1) := by
  simp at ha
  simp [processLines, matchBlockStart, matchBlockEnd, matchRoleMarker, ha, hb]

theorem processLines_cons_keep (file : String) (e k : List String)
    (line : String) (rest stack : List String) (blanks ln : Nat)
    (hs : matchBlockStart line = none) (he : matchBlockEnd line = none)
    (ha : stack.any (fun r => !(e.contains r)) = false) (hline : line ≠ "") :
    processLines file e k (line :: rest) stack blanks ln =
      (processLines file e k rest stack 0 (ln + 1)).map
        (fun out => line :: out) := by
  simp at ha
  simp [processLines, hs, he, ha, hline]
  intro x hx hxe
  exact absurd (ha x hx) hxe

/-! ### Blank-run accounting -/

theorem hasTripleBlank_tail (l : String) (ls : List String)
    (h : hasTripleBlank (l :: ls) = false) : hasTripleBlank ls = false := by
  have h' : ((l == "" && isTwoBlankStart ls) || hasTripleBlank ls) = false := h
  exact (Bool.or_eq_false_iff.mp h').2

theorem leadingBlanks_le_one (ls : List String) (h : isTwoBlankStart ls = false) :
    leadingBlanks ls ≤ 1 := by
  match ls with
  | [] => simp [leadingBlanks]
  | [a] => by_cases ha : a = "" <;> simp [leadingBlanks, ha]
  | a :: b :: t =>
    by_cases ha : a = ""
    · have hb : ¬ b = "" := by
        intro hb
        simp [isTwoBlankStart, ha, hb] at h
      simp [leadingBlanks, ha, hb]
    · simp [leadingBlanks, ha]

theorem leadingBlanks_le_two (ls : List String) (h : hasTripleBlank ls = false) :
    leadingBlanks ls ≤ 2 := by
  match ls with
  | [] => simp [leadingBlanks]
  | l :: t =>
    by_cases hl : l = ""
    · have h' : ((l == "" && isTwoBlankStart t) || hasTripleBlank t) = false := h
      have h2 : isTwoBlankStart t = false := by
        rcases Bool.or_eq_false_iff.mp h' with ⟨h1, _⟩
        simpa [hl] using h1
      have h3 := leadingBlanks_le_one t h2
      rw [(by simp [leadingBlanks, hl] : leadingBlanks (l :: t) = leadingBlanks t + 1)]
      omega
    · simp [leadingBlanks, hl]

theorem collapseBlankRuns_eq_self :
    ∀ (ls : List String) (k : Nat), leadingBlanks ls + k ≤ 2 →
      hasTripleBlank ls = false → collapseBlankRuns ls k = ls := by
  intro ls
  induction ls with
  | nil => intro k _ _; rfl
  | cons l t ih =>
    intro k hk h
    have ht : hasTripleBlank t = false := hasTripleBlank_tail l t h
    by_cases hl : l = ""
    · rw [(by simp [leadingBlanks, hl] : leadingBlanks (l :: t) = leadingBlanks t + 1)] at hk
      have hb : k ≤ 1 := by omega
      simp [collapseBlankRuns, hl, hb, ih (k + 1) (by omega) ht]
    · have hlt : leadingBlanks t ≤ 2 := leadingBlanks_le_two t ht
      simp [collapseBlankRuns, hl, ih 0 (by omega) ht]

theorem any_not_contains_eq_not_all (e stack : List String) :
    (stack.any fun r => !(e.contains r)) = !(stack.all fun r => e.contains r) := by
  induction stack with
  | nil => rfl
  | cons s t ih =>
    show (!(e.contains s) || (t.any fun r => !(e.contains r))) =
      !((e.contains s) && (t.all fun r => e.contains r))
    rw [ih, Bool.not_and]

theorem processLines_markerFree (file : String) (e k : List String) :
    ∀ (lines : List String) (blanks ln : Nat), markerFreeLines lines = true →
      processLines file e k lines [] blanks ln =
        .ok (collapseBlankRuns lines blanks) := by
  intro lines
  induction lines with
  | nil => intro blanks ln _; rfl
  | cons l t ih =>
    intro blanks ln h
    simp only [markerFreeLines, List.all_cons, Bool.and_eq_true,
      Option.isNone_iff_eq_none] at h
    obtain ⟨⟨hs, he⟩, ht⟩ := h
    by_cases hl : l = ""
    · subst hl
      by_cases hb : blanks ≤ 1
      · rw [processLines_cons_blank_emit file e k t [] blanks ln rfl rfl rfl hb,
          ih (blanks + 1) (ln + 1) ht]
        simp [collapseBlankRuns, hb, Except.map]
      · rw [processLines_cons_blank_drop file e k t [] blanks ln rfl hb,
          ih blanks (ln + 1) ht]
        simp [collapseBlankRuns, hb]
    · rw [processLines_cons_keep file e k l t [] blanks ln hs he rfl hl,
        ih 0 (ln + 1) ht]
      simp [collapseBlankRuns, hl, Except.map]

theorem hasTripleBlank_replicate (m : Nat) (hm : m ≤ 2) :
    hasTripleBlank (List.replicate m "") = false := by
  interval_cases m <;> rfl

theorem isTwoBlankStart_nonblank_head (l : String) (t : List String) (hl : l ≠ "") :
    isTwoBlankStart (l :: t) = false := by
  cases t <;> simp [isTwoBlankStart, hl]

theorem isTwoBlankStart_cons_cons (a b : String) (t : List String) :
    isTwoBlankStart (a :: b :: t) = (a == "" && b == "") := rfl

theorem hasTripleBlank_blanks_nonblank (m : Nat) (hm : m ≤ 2) (l : String)
    (hl : l ≠ "") (ls : List String) (h : hasTripleBlank ls = false) :
    hasTripleBlank (List.replicate m "" ++ l :: ls) = false := by
  have hhead := isTwoBlankStart_nonblank_head l ls hl
  interval_cases m <;>
    simp [hasTripleBlank, List.replicate, hhead, isTwoBlankStart_cons_cons, hl, h]

theorem processLines_ok_noTriple (file : String) (e k : List String) :
    ∀ (lines stack : List String) (blanks ln : Nat) (out : List String),
      processLines file e k lines stack blanks ln = .ok out →
      hasTripleBlank (List.replicate (min blanks 2) "" ++ out) = false := by
  intro lines
  induction lines with
  | nil =>
    intro stack blanks ln out h
    cases stack with
    | nil =>
      rw [processLines_nil_empty] at h
      cases h
      simpa using hasTripleBlank_replicate (min blanks 2) (by omega)
    | cons s t =>
      rw [processLines_nil_open file e k (s :: t) blanks ln (by simp)] at h
      cases h
  | cons l ls ih =>
    intro stack blanks ln out h
    cases hS : matchBlockStart l with
    | some role =>
      cases hK : k.contains role with
      | true =>
        rw [processLines_cons_start file e k l ls stack blanks ln role hS hK] at h
        exact ih (role :: stack) blanks (ln + 1) out h
      | false =>
        rw [processLines_cons_start_unknown file e k l ls stack blanks ln role hS hK] at h
        cases h
    | none =>
      cases hE : matchBlockEnd l with
      | some role =>
        cases hK : k.contains role with
        | false =>
          rw [processLines_cons_end_unknown file e k l ls stack blanks ln role hS hE hK] at h
          cases h
        | true =>
          cases stack with
          | nil =>
            rw [processLines_cons_end_emptyStack file e k l ls blanks ln role hS hE hK] at h
            cases h
          | cons top stackTail =>
            by_cases htop : role = top
            · subst htop
              rw [processLines_cons_end_pop file e k l ls stackTail blanks ln role hS hE hK] at h
              exact ih stackTail blanks (ln + 1) out h
            · rw [processLines_cons_end_mismatch file e k l ls top stackTail
                  blanks ln role hS hE hK htop] at h
              cases h
      | none =>
        cases hD : stack.any (fun r => !(e.contains r)) with
        | true =>
          rw [processLines_cons_skip file e k l ls stack blanks ln hS hE hD] at h
          exact ih stack blanks (ln + 1) out h
        | false =>
          by_cases hl : l = ""
          · subst hl
            by_cases hb : blanks ≤ 1
            · rw [processLines_cons_blank_emit file e k ls stack blanks ln rfl rfl hD hb] at h
              cases hr : processLines file e k ls stack (blanks + 1) (ln + 1) with
              | ok out' =>
                rw [hr] at h
                simp only [Except.map] at h
                cases h
                have hih := ih stack (blanks + 1) (ln + 1) out' hr
                rw [(by omega : min blanks 2 = blanks)]
                rw [(by omega : min (blanks + 1) 2 = blanks + 1)] at hih
                rw [List.append_cons, ← List.replicate_succ']
                exact hih
              | error err =>
                rw [hr] at h
                simp only [Except.map] at h
                cases h
            · rw [processLines_cons_blank_drop file e k ls stack blanks ln hD hb] at h
              exact ih stack blanks (ln + 1) out h
          · rw [processLines_cons_keep file e k l ls stack blanks ln hS hE hD hl] at h
            cases hr : processLines file e k ls stack 0 (ln + 1) with
            | ok out' =>
              rw [hr] at h
              simp only [Except.map] at h
              cases h
              have hih := ih stack 0 (ln + 1) out' hr
              simp only [Nat.min_self, List.replicate, List.nil_append] at hih
              exact hasTripleBlank_blanks_nonblank (min blanks 2) (by omega) l hl out'
                (by simpa using hih)
            | error err =>
              rw [hr] at h
              simp only [Except.map] at h
              cases h

/-! ### Loader lemmas -/

theorem topLevelKeys_good (d : YamlValue)
    (h : pyTruthy d = false ∨ isYamlMapping d = true) :
    topLevelKeys d = .ok (effectiveKeys d) := by
  cases d with
  | mapping entries => cases entries with
    | nil => rfl
    | cons x t => rfl
  | seq items =>
    rcases h with h | h
    · cases items with
      | nil => rfl
      | cons x t => simp [pyTruthy] at h
    · simp [isYamlMapping] at h
  | strVal s =>
    rcases h with h | h
    · have hs : s = "" := by simpa [pyTruthy] using h
      subst hs
      rfl
    · simp [isYamlMapping] at h
  | intVal n =>
    rcases h with h | h
    · have hn : n = 0 := by simpa [pyTruthy] using h
      subst hn
      rfl
    · simp [isYamlMapping] at h
  | boolVal b =>
    rcases h with h | h
    · have hb : b = false := by simpa [pyTruthy] using h
      subst hb
      rfl
    · simp [isYamlMapping] at h
  | null => rfl

theorem topLevelKeys_bad (d : YamlValue)
    (ht : pyTruthy d = true) (hm : isYamlMapping d = false) :
    ∃ msg, topLevelKeys d = .error msg := by
  cases d with
  | mapping entries => simp [isYamlMapping] at hm
  | seq items =>
    exact ⟨"did not parse to a YAML mapping/dict", by simp [topLevelKeys, ht]⟩
  | strVal s =>
    exact ⟨"did not parse to a YAML mapping/dict", by simp [topLevelKeys, ht]⟩
  | intVal n =>
    exact ⟨"did not parse to a YAML mapping/dict", by simp [topLevelKeys, ht]⟩
  | boolVal b =>
    exact ⟨"did not parse to a YAML mapping/dict", by simp [topLevelKeys, ht]⟩
  | null => simp [pyTruthy] at ht

theorem loadVarsAux_all_good :
    ∀ (docs : List YamlValue) (acc : List String),
      (∀ d ∈ docs, pyTruthy d = false ∨ isYamlMapping d = true) →
      ∃ ns, loadVarsAux docs acc = .ok ns ∧
        (acc.Nodup → ns.Nodup) ∧
        (∀ x, x ∈ ns ↔ x ∈ acc ∨ ∃ d ∈ docs, x ∈ effectiveKeys d) := by
  intro docs
  induction docs with
  | nil =>
    intro acc _
    exact ⟨acc, rfl, fun hn => hn, by simp⟩
  | cons d ds ih =>
    intro acc h
    have hd := topLevelKeys_good d (h d (by simp))
    have hds : ∀ x ∈ ds, pyTruthy x = false ∨ isYamlMapping x = true :=
      fun x hx => h x (by simp [hx])
    obtain ⟨ns, hns, hnodup, hmem⟩ := ih ((acc ++ effectiveKeys d).dedup) hds
    refine ⟨ns, ?_, fun _ => hnodup (List.nodup_dedup _), fun x => ?_⟩
    · simp only [loadVarsAux, hd]
      exact hns
    · rw [hmem x]
      simp only [List.mem_dedup, List.mem_append, List.mem_cons]
      constructor
      · rintro ((hx | hx) | ⟨d', hd', hx⟩)
        · exact Or.inl hx
        · exact Or.inr ⟨d, Or.inl rfl, hx⟩
        · exact Or.inr ⟨d', Or.inr hd', hx⟩
      · rintro (hx | ⟨d', (rfl | hd'), hx⟩)
        · exact Or.inl (Or.inl hx)
        · exact Or.inl (Or.inr hx)
        · exact Or.inr ⟨d', hd', hx⟩

theorem loadVarsAux_bad :
    ∀ (docs : List YamlValue) (acc : List String),
      (∃ d ∈ docs, pyTruthy d = true ∧ isYamlMapping d = false) →
      ∃ msg, loadVarsAux docs acc = .error msg := by
  intro docs
  induction docs with
  | nil =>
    intro acc h
    simp at h
  | cons d ds ih =>
    intro acc h
    rcases h with ⟨d', hd', ht, hm⟩
    rcases List.mem_cons.mp hd' with rfl | hmem
    · obtain ⟨msg, hmsg⟩ := topLevelKeys_bad d' ht hm
      exact ⟨msg, by simp only [loadVarsAux, hmsg]⟩
    · cases hk : topLevelKeys d with
      | ok ks =>
        obtain ⟨msg, hmsg⟩ := ih ((acc ++ ks).dedup) ⟨d', hmem, ht, hm⟩
        refine ⟨msg, ?_⟩
        simp only [loadVarsAux, hk]
        exact hmsg
      | error msg => exact ⟨msg, by simp only [loadVarsAux, hk]⟩

/-! ### Claims -/

/-- Claim C1: the activation predicate of the resolver holds exactly as
follows: an absent activation-prefix never enables the role; an empty
activation-prefix enables it for every variable-name set, including the
empty one; a non-empty activation-prefix `p` enables it iff at least one
used variable name starts with `p` under exact, case-sensitive prefix
match. -/
theorem C1_activation_predicate (rd : RoleDefinition) (used : List String) :
    (rd.activationPfx = none → is_role_definition_in_use rd used = false) ∧
    (rd.activationPfx = some "" → is_role_definition_in_use rd used = true) ∧
    (∀ p, rd.activationPfx = some p → p ≠ "" →
      (is_role_definition_in_use rd used = true ↔
        ∃ v ∈ used, startswith v p = true)) := by
  refine ⟨fun h => ?_, fun h => ?_, fun p hp hne => ?_⟩
  · simp [is_role_definition_in_use, h]
  · simp [is_role_definition_in_use, h]
  · simp [is_role_definition_in_use, hp, hne, List.any_eq_true]

/-- Witness for C1 at concrete inputs: an absent activation-prefix is
disabled, an empty activation-prefix is enabled on the empty set, and
activation-prefix `"db_"` is enabled on `["db_host", "api_key"]`. -/
theorem C1_activation_predicate_witness :
    is_role_definition_in_use ⟨"off", none⟩ ["x"] = false ∧
    is_role_definition_in_use ⟨"always", some ""⟩ [] = true ∧
    is_role_definition_in_use ⟨"web", some "db_"⟩ ["db_host", "api_key"] = true :=
  ⟨(C1_activation_predicate ⟨"off", none⟩ ["x"]).1 rfl,
   (C1_activation_predicate ⟨"always", some ""⟩ []).2.1 rfl,
   ((C1_activation_predicate ⟨"web", some "db_"⟩ ["db_host", "api_key"]).2.2 "db_" rfl
      (by decide)).mpr ⟨"db_host", by simp, by decide⟩⟩

/-- Claim C2: a non-marker line is retained iff every role name currently
on the open-block stack is enabled (conjunction across all nesting
levels): when some stack entry is not enabled the line is dropped and the
scan continues unchanged; when all entries are enabled a non-blank line is
emitted; a line scanned with an empty stack is always retained (subject
only to blank-run compaction); and for nested blocks `A` then `B` an inner
line is retained iff both `A` and `B` are enabled. -/
theorem C2_retention (file : String) (enabled known : List String)
    (line : String) (rest stack : List String) (blanks ln : Nat) :
    (matchBlockStart line = none → matchBlockEnd line = none →
      (stack.all fun r => enabled.contains r) = false →
      processLines file enabled known (line :: rest) stack blanks ln =
        processLines file enabled known rest stack blanks (ln + 1)) ∧
    (matchBlockStart line = none → matchBlockEnd line = none →
      (stack.all fun r => enabled.contains r) = true → line ≠ "" →
      processLines file enabled known (line :: rest) stack blanks ln =
        (processLines file enabled known rest stack 0 (ln + 1)).map
          (fun out => line :: out)) ∧
    (matchBlockStart line = none → matchBlockEnd line = none → line ≠ "" →
      processLines file enabled known (line :: rest) [] blanks ln =
        (processLines file enabled known rest [] 0 (ln + 1)).map
          (fun out => line :: out)) ∧
    (∀ e, processLines file e ["A", "B"]
        ["# role-specific:A", "# role-specific:B", "inner",
         "# /role-specific:B", "# /role-specific:A"] [] 0 1 =
      .ok (if e.contains "A" && e.contains "B" then ["inner"] else [])) := by
  refine ⟨fun hs he hall => ?_, fun hs he hall hline => ?_, fun hs he hline => ?_, fun e => ?_⟩
  · exact processLines_cons_skip file enabled known line rest stack blanks ln hs he
      (by rw [any_not_contains_eq_not_all, hall]; rfl)
  · exact processLines_cons_keep file enabled known line rest stack blanks ln hs he
      (by rw [any_not_contains_eq_not_all, hall]; rfl) hline
  · exact processLines_cons_keep file enabled known line rest [] blanks ln hs he rfl hline
  · rw [processLines_cons_start file e ["A", "B"] "# role-specific:A"
        ["# role-specific:B", "inner", "# /role-specific:B", "# /role-specific:A"]
        [] 0 1 "A" rfl rfl]
    rw [processLines_cons_start file e ["A", "B"] "# role-specific:B"
        ["inner", "# /role-specific:B", "# /role-specific:A"]
        ["A"] 0 2 "B" rfl rfl]
    by_cases hA : "A" ∈ e <;> by_cases hB : "B" ∈ e
    · rw [processLines_cons_keep file e ["A", "B"] "inner"
          ["# /role-specific:B", "# /role-specific:A"] ["B", "A"] 0 3 rfl rfl
          (by simp [hA, hB]) (by decide)]
      rw [processLines_cons_end_pop file e ["A", "B"] "# /role-specific:B"
          ["# /role-specific:A"] ["A"] 0 4 "B" rfl rfl rfl]
      rw [processLines_cons_end_pop file e ["A", "B"] "# /role-specific:A"
          [] [] 0 5 "A" rfl rfl rfl]
      simp [processLines, Except.map, hA, hB]
    · rw [processLines_cons_skip file e ["A", "B"] "inner"
          ["# /role-specific:B", "# /role-specific:A"] ["B", "A"] 0 3 rfl rfl
          (by simp [hA, hB])]
      rw [processLines_cons_end_pop file e ["A", "B"] "# /role-specific:B"
          ["# /role-specific:A"] ["A"] 0 4 "B" rfl rfl rfl]
      rw [processLines_cons_end_pop file e ["A", "B"] "# /role-specific:A"
          [] [] 0 5 "A" rfl rfl rfl]
      simp [processLines, hA, hB]
    · rw [processLines_cons_skip file e ["A", "B"] "inner"
          ["# /role-specific:B", "# /role-specific:A"] ["B", "A"] 0 3 rfl rfl
          (by simp [hA, hB])]
      rw [processLines_cons_end_pop file e ["A", "B"] "# /role-specific:B"
          ["# /role-specific:A"] ["A"] 0 4 "B" rfl rfl rfl]
      rw [processLines_cons_end_pop file e ["A", "B"] "# /role-specific:A"
          [] [] 0 5 "A" rfl rfl rfl]
      simp [processLines, hA, hB]
    · rw [processLines_cons_skip file e ["A", "B"] "inner"
          ["# /role-specific:B", "# /role-specific:A"] ["B", "A"] 0 3 rfl rfl
          (by simp [hA, hB])]
      rw [processLines_cons_end_pop file e ["A", "B"] "# /role-specific:B"
          ["# /role-specific:A"] ["A"] 0 4 "B" rfl rfl rfl]
      rw [processLines_cons_end_pop file e ["A", "B"] "# /role-specific:A"
          [] [] 0 5 "A" rfl rfl rfl]
      simp [processLines, hA, hB]

/-- Witness for C2 at concrete inputs: inside a disabled block a line is
dropped; inside an enabled block it is kept; with an empty stack it is
kept; and the nested `A`/`B` file keeps the inner line exactly when both
are enabled. -/
theorem C2_retention_witness :
    processLines "f" ["A"] ["A", "Z"] ["x"] ["Z"] 0 5 =
      processLines "f" ["A"] ["A", "Z"] [] ["Z"] 0 6 ∧
    processLines "f" ["A"] ["A"] ["x"] ["A"] 0 5 =
      (processLines "f" ["A"] ["A"] [] ["A"] 0 6).map (fun out => "x" :: out) ∧
    processLines "f" [] [] ["x"] [] 3 5 =
      (processLines "f" [] [] [] [] 0 6).map (fun out => "x" :: out) ∧
    processLines "f" ["A", "B"] ["A", "B"]
        ["# role-specific:A", "# role-specific:B", "inner",
         "# /role-specific:B", "# /role-specific:A"] [] 0 1 = .ok ["inner"] ∧
    processLines "f" ["A"] ["A", "B"]
        ["# role-specific:A", "# role-specific:B", "inner",
         "# /role-specific:B", "# /role-specific:A"] [] 0 1 = .ok [] :=
  ⟨(C2_retention "f" ["A"] ["A", "Z"] "x" [] ["Z"] 0 5).1 rfl rfl (by decide),
   (C2_retention "f" ["A"] ["A"] "x" [] ["A"] 0 5).2.1 rfl rfl (by decide) (by decide),
   (C2_retention "f" [] [] "x" [] [] 3 5).2.2.1 rfl rfl (by decide),
   (C2_retention "f" [] [] "" [] [] 0 0).2.2.2 ["A", "B"],
   (C2_retention "f" [] [] "" [] [] 0 0).2.2.2 ["A"]⟩

/-- Claim C3: blank-run compaction applies only to retained blank lines:
a retained blank line arriving with fewer than two blanks already in the
current run is emitted and the run counter is incremented; the 3rd and
subsequent blanks of a run are dropped with the counter unchanged; a
retained non-blank line resets the counter to zero; marker lines and
lines dropped by the retention rule pass the counter through untouched;
and the input lines `["a", "", "", "", "b"]` with no guards yield
`["a", "", "", "b"]`. -/
theorem C3_blank_compaction (file : String) (enabled known : List String)
    (rest stack : List String) (blanks ln : Nat) :
    ((stack.any fun r => !(enabled.contains r)) = false → blanks ≤ 1 →
      processLines file enabled known ("" :: rest) stack blanks ln =
        (processLines file enabled known rest stack (blanks + 1) (ln + 1)).map
          (fun out => "" :: out)) ∧
    ((stack.any fun r => !(enabled.contains r)) = false → 2 ≤ blanks →
      processLines file enabled known ("" :: rest) stack blanks ln =
        processLines file enabled known rest stack blanks (ln + 1)) ∧
    (∀ line, matchBlockStart line = none → matchBlockEnd line = none →
      (stack.any fun r => !(enabled.contains r)) = false → line ≠ "" →
      processLines file enabled known (line :: rest) stack blanks ln =
        (processLines file enabled known rest stack 0 (ln + 1)).map
          (fun out => line :: out)) ∧
    (∀ line role, matchBlockStart line = some role → known.contains role = true →
      processLines file enabled known (line :: rest) stack blanks ln =
        processLines file enabled known rest (role :: stack) blanks (ln + 1)) ∧
    (∀ line role stackTail, stack = role :: stackTail →
      matchBlockStart line = none → matchBlockEnd line = some role →
      known.contains role = true →
      processLines file enabled known (line :: rest) stack blanks ln =
        processLines file enabled known rest stackTail blanks (ln + 1)) ∧
    (∀ line, matchBlockStart line = none → matchBlockEnd line = none →
      (stack.any fun r => !(enabled.contains r)) = true →
      processLines file enabled known (line :: rest) stack blanks ln =
        processLines file enabled known rest stack blanks (ln + 1)) ∧
    (∀ e k, processLines file e k ["a", "", "", "", "b"] [] 0 1 =
      .ok ["a", "", "", "b"]) := by
  refine ⟨fun ha hb => ?_, fun ha hb => ?_, fun line hs he ha hline => ?_,
    fun line role hs hk => ?_, fun line role stackTail hstack hs he hk => ?_,
    fun line hs he hd => ?_, fun e k => rfl⟩
  · exact processLines_cons_blank_emit file enabled known rest stack blanks ln rfl rfl ha hb
  · exact processLines_cons_blank_drop file enabled known rest stack blanks ln ha (by omega)
  · exact processLines_cons_keep file enabled known line rest stack blanks ln hs he ha hline
  · exact processLines_cons_start file enabled known line rest stack blanks ln role hs hk
  · subst hstack
    exact processLines_cons_end_pop file enabled known line rest stackTail blanks ln role hs he hk
  · exact processLines_cons_skip file enabled known line rest stack blanks ln hs he hd

/-- Witness for C3 at concrete inputs: a second blank is kept and counts,
a third blank is dropped, a non-blank resets the counter, a marker and a
dropped line pass the counter through, and the spec example compacts a run
of three blanks to two. -/
theorem C3_blank_compaction_witness :
    processLines "f" [] [] [""] [] 1 7 =
      (processLines "f" [] [] [] [] 2 8).map (fun out => "" :: out) ∧
    processLines "f" [] [] [""] [] 2 7 = processLines "f" [] [] [] [] 2 8 ∧
    processLines "f" [] [] ["x"] [] 2 7 =
      (processLines "f" [] [] [] [] 0 8).map (fun out => "x" :: out) ∧
    processLines "f" [] ["A"] ["# role-specific:A"] [] 2 7 =
      processLines "f" [] ["A"] [] ["A"] 2 8 ∧
    processLines "f" [] ["A"] ["# /role-specific:A"] ["A"] 2 7 =
      processLines "f" [] ["A"] [] [] 2 8 ∧
    processLines "f" ["A"] ["A", "Z"] ["y"] ["Z"] 2 7 =
      processLines "f" ["A"] ["A", "Z"] [] ["Z"] 2 8 ∧
    processLines "f" [] [] ["a", "", "", "", "b"] [] 0 1 = .ok ["a", "", "", "b"] :=
  ⟨(C3_blank_compaction "f" [] [] [] [] 1 7).1 rfl (by decide),
   (C3_blank_compaction "f" [] [] [] [] 2 7).2.1 rfl (by decide),
   (C3_blank_compaction "f" [] [] [] [] 2 7).2.2.1 "x" rfl rfl rfl (by decide),
   (C3_blank_compaction "f" [] ["A"] [] [] 2 7).2.2.2.1 "# role-specific:A" "A" rfl rfl,
   (C3_blank_compaction "f" [] ["A"] [] ["A"] 2 7).2.2.2.2.1 "# /role-specific:A" "A" []
      rfl rfl rfl rfl,
   (C3_blank_compaction "f" ["A"] ["A", "Z"] [] ["Z"] 2 7).2.2.2.2.2.1 "y" rfl rfl
      (by decide),
   (C3_blank_compaction "f" [] [] [] [] 0 0).2.2.2.2.2.2 [] []⟩

/-- Claim C4: a start or end marker whose captured role name is not known
fails with an unknown-role error, regardless of enablement and of the
stack (for end markers the unknown-role check fires before any stack
check); the error carries the file, the 1-based line number, the role name
and the known-role list sorted (the carried list is sorted and a
permutation of the known set). -/
theorem C4_unknown_role (file : String) (enabled known : List String)
    (line : String) (rest stack : List String) (blanks ln : Nat) :
    (∀ role, matchBlockStart line = some role → known.contains role = false →
      processLines file enabled known (line :: rest) stack blanks ln =
        .error (.unknownRoleStart file ln role (sortStrings known))) ∧
    (∀ role, matchBlockStart line = none → matchBlockEnd line = some role →
      known.contains role = false →
      processLines file enabled known (line :: rest) stack blanks ln =
        .error (.unknownRoleEnd file ln role (sortStrings known))) ∧
    (List.Sorted (fun a b => a ≤ b) (sortStrings known) ∧ List.Perm (sortStrings known) known) := by
  refine ⟨fun role hs hk => ?_, fun role hs he hk => ?_, ?_, ?_⟩
  · exact processLines_cons_start_unknown file enabled known line rest stack blanks ln role hs hk
  · exact processLines_cons_end_unknown file enabled known line rest stack blanks ln role hs he hk
  · exact List.sorted_insertionSort _ known
  · exact List.perm_insertionSort _ known

/-- Witness for C4 at concrete inputs: the role `ghost` is unknown among
`{b, a}`, so a start marker and an end marker naming it both fail (the end
marker even with a non-empty, mismatching stack), with the known names
sorted in the error payload. -/
theorem C4_unknown_role_witness :
    processLines "setup.yml" [] ["b", "a"] ["# role-specific:ghost"] [] 0 1 =
      .error (.unknownRoleStart "setup.yml" 1 "ghost" (sortStrings ["b", "a"])) ∧
    processLines "setup.yml" [] ["b", "a"] ["# /role-specific:ghost"] ["b"] 7 4 =
      .error (.unknownRoleEnd "setup.yml" 4 "ghost" (sortStrings ["b", "a"])) :=
  ⟨(C4_unknown_role "setup.yml" [] ["b", "a"] "# role-specific:ghost" [] [] 0 1).1
      "ghost" rfl (by decide),
   (C4_unknown_role "setup.yml" [] ["b", "a"] "# /role-specific:ghost" [] ["b"] 7 4).2.1
      "ghost" rfl rfl (by decide)⟩

/-- Claim C5: an end marker with a known role name fails with an
unbalanced-block error exactly when the stack is empty (close without
open) or the stack top differs from the captured name (LIFO order
violated); when the top matches, the scan pops and continues.  In
particular `role-specific:A` immediately followed by `/role-specific:B`
(both known) fails with the mismatch error naming `B` and `A`. -/
theorem C5_unbalanced_end (file : String) (enabled known : List String)
    (line : String) (rest : List String) (blanks ln : Nat) (role : String) :
    (matchBlockStart line = none → matchBlockEnd line = some role →
      known.contains role = true →
      processLines file enabled known (line :: rest) [] blanks ln =
        .error (.endWithoutOpen file ln role)) ∧
    (∀ top stackTail, matchBlockStart line = none → matchBlockEnd line = some role →
      known.contains role = true → role ≠ top →
      processLines file enabled known (line :: rest) (top :: stackTail) blanks ln =
        .error (.endMismatch file ln role top)) ∧
    (∀ stackTail, matchBlockStart line = none → matchBlockEnd line = some role →
      known.contains role = true →
      processLines file enabled known (line :: rest) (role :: stackTail) blanks ln =
        processLines file enabled known rest stackTail blanks (ln + 1)) ∧
    (∀ e, processLines file e ["A", "B"]
        ["# role-specific:A", "# /role-specific:B"] [] 0 1 =
      .error (.endMismatch file 2 "B" "A")) := by
  refine ⟨fun hs he hk => ?_, fun top stackTail hs he hk hne => ?_,
    fun stackTail hs he hk => ?_, fun e => rfl⟩
  · exact processLines_cons_end_emptyStack file enabled known line rest blanks ln role hs he hk
  · exact processLines_cons_end_mismatch file enabled known line rest top stackTail
      blanks ln role hs he hk hne
  · exact processLines_cons_end_pop file enabled known line rest stackTail blanks ln role hs he hk

/-- Witness for C5 at concrete inputs: an end marker for the known role
`B` fails on an empty stack, fails when `A` is on top, and pops when `B`
is on top. -/
theorem C5_unbalanced_end_witness :
    processLines "f" [] ["A", "B"] ["# /role-specific:B"] [] 0 1 =
      .error (.endWithoutOpen "f" 1 "B") ∧
    processLines "f" [] ["A", "B"] ["# /role-specific:B"] ["A"] 0 1 =
      .error (.endMismatch "f" 1 "B" "A") ∧
    processLines "f" [] ["A", "B"] ["# /role-specific:B"] ["B"] 0 1 =
      processLines "f" [] ["A", "B"] [] [] 0 2 :=
  ⟨(C5_unbalanced_end "f" [] ["A", "B"] "# /role-specific:B" [] 0 1 "B").1
      rfl rfl (by decide),
   (C5_unbalanced_end "f" [] ["A", "B"] "# /role-specific:B" [] 0 1 "B").2.1
      "A" [] rfl rfl (by decide) (by decide),
   (C5_unbalanced_end "f" [] ["A", "B"] "# /role-specific:B" [] 0 1 "B").2.2.1
      [] rfl rfl (by decide)⟩

/-- Claim C6: at end of input a non-empty stack is fatal, with a
diagnostic listing the still-open role names outermost first (the reverse
of the LIFO stack, whose head is the innermost open block); an empty stack
succeeds, and on success `process_file_contents` returns the retained
lines rejoined with the newline separator.  In particular two unclosed
opens `A` then `B` are reported as `[A, B]`. -/
theorem C6_end_of_input (file : String) (enabled known : List String) :
    (∀ stack blanks ln, stack ≠ [] →
      processLines file enabled known [] stack blanks ln =
        .error (.unclosedBlocks file stack.reverse)) ∧
    (∀ blanks ln, processLines file enabled known [] [] blanks ln = .ok []) ∧
    (∀ contents out_lines,
      processLines file enabled known (splitLines contents) [] 0 1 = .ok out_lines →
      process_file_contents file contents enabled known =
        .ok (String.intercalate "\n" out_lines)) ∧
    (∀ e, processLines file e ["A", "B"]
        ["# role-specific:A", "# role-specific:B"] [] 0 1 =
      .error (.unclosedBlocks file ["A", "B"])) := by
  refine ⟨fun stack blanks ln h => ?_, fun blanks ln => rfl,
    fun contents out_lines h => ?_, fun e => rfl⟩
  · exact processLines_nil_open file enabled known stack blanks ln h
  · simp [process_file_contents, h, Except.map]

/-- Witness for C6 at concrete inputs: a file consisting of one open
marker and one regular line ends with a non-empty stack and fails; the
regular line `x` alone succeeds, and is returned rejoined. -/
theorem C6_end_of_input_witness :
    processLines "f" [] ["A"] [] ["B", "A"] 0 3 =
      .error (.unclosedBlocks "f" ["A", "B"]) ∧
    processLines "f" [] ["A"] [] [] 5 9 = .ok [] ∧
    process_file_contents "f" "x" [] ["A"] = .ok (String.intercalate "\n" ["x"]) :=
  ⟨by
      have h := (C6_end_of_input "f" [] ["A"]).1 ["B", "A"] 0 3 (by decide)
      simpa using h,
   (C6_end_of_input "f" [] ["A"]).2.1 5 9,
   (C6_end_of_input "f" [] ["A"]).2.2.1 "x" ["x"] rfl⟩

/-- Claim C10: every role name in the enabled set is also in the known
set: the enabled definitions are selected by filtering the same validated
definition list whose names form the known set. -/
theorem C10_enabled_subset_known (defs : List RoleDefinition) (used : List String) :
    ∀ r, r ∈ enabled_role_names defs used → r ∈ known_role_names defs := by
  intro r hr
  simp only [enabled_role_names, enabled_role_definitions, known_role_names,
    List.mem_dedup, List.mem_map] at hr ⊢
  obtain ⟨rd, hrd, hname⟩ := hr
  exact ⟨rd, (List.mem_filter.mp hrd).1, hname⟩

/-- Witness for C10 at a concrete input: with definitions `web` (enabled
via `web_port`) and `off` (no activation-prefix key), the enabled name
`web` is known. -/
theorem C10_enabled_subset_known_witness :
    "web" ∈ known_role_names [⟨"web", some "web_"⟩, ⟨"off", none⟩] :=
  C10_enabled_subset_known [⟨"web", some "web_"⟩, ⟨"off", none⟩] ["web_port"]
    "web" (by decide)

/-- Claim C7: on input containing no line matching the open or close
marker pattern, the filter succeeds and returns the input unchanged except
that blank runs are compacted (`collapseBlankRuns`, which collapses every
run of 3 or more consecutive blank lines to exactly 2); when the input has
no run of 3 consecutive blank lines it is returned verbatim; and the same
holds through `process_file_contents` for a marker-free contents string,
rejoined with the newline separator. -/
theorem C7_marker_free (file : String) (enabled known : List String)
    (contents : String) (lines : List String) :
    (markerFreeLines lines = true →
      processLines file enabled known lines [] 0 1 =
        .ok (collapseBlankRuns lines 0)) ∧
    (markerFreeLines lines = true → hasTripleBlank lines = false →
      processLines file enabled known lines [] 0 1 = .ok lines) ∧
    (markerFreeLines (splitLines contents) = true →
      process_file_contents file contents enabled known =
        .ok (String.intercalate "\n" (collapseBlankRuns (splitLines contents) 0))) := by
  refine ⟨fun h => processLines_markerFree file enabled known lines 0 1 h,
    fun h hnt => ?_, fun h => ?_⟩
  · rw [processLines_markerFree file enabled known lines 0 1 h,
      collapseBlankRuns_eq_self lines 0
        (by have := leadingBlanks_le_two lines hnt; omega) hnt]
  · unfold process_file_contents
    rw [processLines_markerFree file enabled known (splitLines contents) 0 1 h]
    rfl

/-- Witness for C7 at concrete inputs: the marker-free lines
`["a", "", "", "", "b"]` are compacted, the lines `["a", "", "b"]` with no
triple blank are returned verbatim, and the contents string `"a\n\nb"`
passes through `process_file_contents` unchanged. -/
theorem C7_marker_free_witness :
    processLines "f" [] [] ["a", "", "", "", "b"] [] 0 1 =
      .ok (collapseBlankRuns ["a", "", "", "", "b"] 0) ∧
    processLines "f" [] [] ["a", "", "b"] [] 0 1 = .ok ["a", "", "b"] ∧
    process_file_contents "f" "a\n\nb" [] [] =
      .ok (String.intercalate "\n" (collapseBlankRuns (splitLines "a\n\nb") 0)) :=
  ⟨(C7_marker_free "f" [] [] "" ["a", "", "", "", "b"]).1 (by decide),
   (C7_marker_free "f" [] [] "" ["a", "", "b"]).2.1 (by decide) (by decide),
   (C7_marker_free "f" [] [] "a\n\nb" []).2.2 (by decide)⟩

/-- Claim C8: filtering is idempotent on its own marker-free output: when
the filter succeeds on some input lines and its output contains no marker
lines, running the filter again on that output (with the same enabled and
known sets) returns it unchanged.  The proof uses the run invariant that
the output never contains three consecutive blank lines. -/
theorem C8_idempotent (file : String) (enabled known : List String)
    (lines out : List String)
    (h : processLines file enabled known lines [] 0 1 = .ok out)
    (hmf : markerFreeLines out = true) :
    processLines file enabled known out [] 0 1 = .ok out := by
  have hnt : hasTripleBlank out = false := by
    have h2 := processLines_ok_noTriple file enabled known lines [] 0 1 out h
    simpa using h2
  rw [processLines_markerFree file enabled known out 0 1 hmf,
    collapseBlankRuns_eq_self out 0
      (by have := leadingBlanks_le_two out hnt; omega) hnt]

/-- Witness for C8 at a concrete input: filtering a file with one enabled
block and a run of three blanks yields `["x", "", "", "y"]`, and filtering
that output again returns it unchanged. -/
theorem C8_idempotent_witness :
    processLines "f" ["A"] ["A"]
        ["# role-specific:A", "x", "# /role-specific:A", "", "", "", "y"] [] 0 1 =
      .ok ["x", "", "", "y"] ∧
    processLines "f" ["A"] ["A"] ["x", "", "", "y"] [] 0 1 =
      .ok ["x", "", "", "y"] :=
  ⟨rfl,
   C8_idempotent "f" ["A"] ["A"]
     ["# role-specific:A", "x", "# /role-specific:A", "", "", "", "y"]
     ["x", "", "", "y"] rfl (by decide)⟩

/-- Counterexample to claim C9 as stated: the claim says every source
whose top-level parsed value is not a mapping causes a validation error,
but the `yaml_data or {}` coercion replaces every falsy parse result — not
only the empty document — by the empty mapping, so a source parsing to the
empty sequence `[]` is not a mapping yet the load succeeds and contributes
no names. -/
theorem C9_counterexample :
    isYamlMapping (YamlValue.seq []) = false ∧
    load_combined_variable_names_from_files [YamlValue.seq []] = .ok [] :=
  ⟨rfl, rfl⟩

/-- Claim C9 (amended): an empty document is treated as an empty mapping
and contributes no names without error; a source whose top-level parsed
value is truthy and not a mapping causes a validation error, while falsy
non-mapping values are coerced to the empty mapping; on success the result
is the deduplicated union of the top-level key names of all sources. -/
theorem C9_load_variable_names (docs : List YamlValue) :
    load_combined_variable_names_from_files [YamlValue.null] = .ok [] ∧
    ((∀ d ∈ docs, pyTruthy d = false ∨ isYamlMapping d = true) →
      ∃ ns, load_combined_variable_names_from_files docs = .ok ns ∧
        ns.Nodup ∧ (∀ x, x ∈ ns ↔ ∃ d ∈ docs, x ∈ effectiveKeys d)) ∧
    ((∃ d ∈ docs, pyTruthy d = true ∧ isYamlMapping d = false) →
      ∃ msg, load_combined_variable_names_from_files docs = .error msg) := by
  refine ⟨rfl, fun h => ?_, fun h => loadVarsAux_bad docs [] h⟩
  obtain ⟨ns, hns, hnodup, hmem⟩ := loadVarsAux_all_good docs [] h
  exact ⟨ns, hns, hnodup List.nodup_nil, fun x => by simpa using hmem x⟩

/-- Witness for C9 (amended) at concrete inputs: two mapping sources with
an overlapping key and an interposed empty document load to the
deduplicated key union, while a truthy non-mapping source (a non-empty
string) makes the load fail. -/
theorem C9_load_variable_names_witness :
    (∃ ns, load_combined_variable_names_from_files
        [YamlValue.mapping [("a", YamlValue.null), ("b", YamlValue.null)],
         YamlValue.null,
         YamlValue.mapping [("b", YamlValue.null), ("c", YamlValue.null)]] = .ok ns ∧
      ns.Nodup ∧
      (∀ x, x ∈ ns ↔ ∃ d ∈
        [YamlValue.mapping [("a", YamlValue.null), ("b", YamlValue.null)],
         YamlValue.null,
         YamlValue.mapping [("b", YamlValue.null), ("c", YamlValue.null)]],
        x ∈ effectiveKeys d)) ∧
    (∃ msg, load_combined_variable_names_from_files
        [YamlValue.mapping [("a", YamlValue.null)], YamlValue.strVal "x"] =
      .error msg) :=
  ⟨(C9_load_variable_names
      [YamlValue.mapping [("a", YamlValue.null), ("b", YamlValue.null)],
       YamlValue.null,
       YamlValue.mapping [("b", YamlValue.null), ("c", YamlValue.null)]]).2.1
    (by decide),
   (C9_load_variable_names
      [YamlValue.mapping [("a", YamlValue.null)], YamlValue.strVal "x"]).2.2
    ⟨YamlValue.strVal "x", List.Mem.tail _ (List.Mem.head _), rfl, rfl⟩⟩

end Optimize
